import Mathlib

/-!
Shallow embedding of the SSM-SAM training/evaluation scripts
(`src/train.py`, `src/test.py`) and proofs about their orchestration
logic: metric dispatch, loss-mode dispatch, checkpoint saving, CSV
logging, the epoch loop, and batched prediction.

External framework operations (torch, datasets, models, utils) are
modelled as free constructors / oracle parameters: the scripts never
inspect the values these produce, they only route them, so symbolic
terms capture the glue code exactly.
-/

namespace SSMSAM

/-- Errors a Python run can raise in the modelled code paths.
`nameError v` models using a local variable `v` that was never bound,
`keyError k` models `config[k]` on a missing key, and
`zeroDivisionError` models `%` by zero. -/
inductive PyErr where
  | nameError (v : String)
  | keyError (k : String)
  | zeroDivisionError
deriving DecidableEq, Repr

/-- The section `config['model']` of the YAML config: the fields the
scripts actually read (`['name']`, `['args']['encoder_mode']['name']`,
`['args']['loss']`). -/
structure ModelConfig where
  name : String
  encoderModeName : String
  loss : String
deriving DecidableEq, Repr

/-- The YAML config dictionary, restricted to the keys the two scripts
read. Keys read with `config.get(...)` (which may be absent) are
`Option`; keys read with `config[...]` are also `Option` here and a
missing one raises `keyError` at the access site. -/
structure Config where
  modelCfg : ModelConfig
  optimizerSpec : String
  epoch_max : Int
  epoch_val : Option Int
  lr_min : ℚ
  eval_type : Option String
  sam_checkpoint : String
  resume : Option Int
deriving DecidableEq, Repr

/-- Models, symbolically: `models.make(spec)`, mutation by
`load_state_dict(torch.load(path))`, and the parameter updates done by
one epoch of `train`. -/
inductive Model where
  | make (spec : ModelConfig)
  | loadStateDict (m : Model) (ckptPath : String)
  | trainStep (m : Model) (epoch : Int)
deriving DecidableEq, Repr

/-- `utils.make_optimizer(model.parameters(), config['optimizer'])`. -/
inductive Optimizer where
  | make (m : Model) (spec : String)
deriving DecidableEq, Repr

/-- `CosineAnnealingLR(optimizer, T_max, eta_min)`. -/
inductive Scheduler where
  | cosine (opt : Optimizer) (tMax : Int) (etaMin : ℚ)
deriving DecidableEq, Repr

/-- Tensors, symbolically: raw batch tensors, `torch.sigmoid`,
a model forward call `model(inp, gt, num_points=n)`, and
`torch.cat(_, 1)`. -/
inductive Tensor where
  | raw (id : String)
  | sigmoid (t : Tensor)
  | forward (m : Model) (inp gt : Tensor) (numPoints : Nat)
  | cat1 (ts : List Tensor)

/-- One batch yielded by a data loader: the keys read by the scripts. -/
structure Batch where
  inp : Tensor
  gt : Tensor
  gt_name : String

/-- State dicts, symbolically: `model.state_dict()`,
`model.encoder.backbone.prompt_generator.state_dict()` and
`model.encoder.decode_head.state_dict()`. -/
inductive StateDict where
  | ofModel (m : Model)
  | promptGenerator (m : Model)
  | decodeHead (m : Model)
deriving DecidableEq, Repr

/-- What `torch.save` is given in `save` (train.py lines 308-319):
either the dict `{"prompt": ..., "decode_head": ...}` or the full
`model.state_dict()`. -/
inductive CheckpointContent where
  | promptCkpt (prompt decode_head : StateDict)
  | fullState (sd : StateDict)
deriving DecidableEq, Repr

/-- A single `torch.save(content, path)` call. -/
structure FileWrite where
  path : String
  content : CheckpointContent
deriving DecidableEq, Repr

/-- `os.path.join(a, b)` for the relative paths used here. -/
def pathJoin (a b : String) : String := a ++ "/" ++ b

/-- The metric functions referenced by name in both scripts'
`eval_psnr`; all live in the external `utils` module. -/
inductive MetricFn where
  | calc_f1
  | calc_fmeasure
  | calc_ber
  | calc_cod
  | cal_dice_iou
deriving DecidableEq, Repr

/-- The `if/elif` chain shared verbatim by `train.py` lines 98-112 and
`test.py` lines 49-63: maps `eval_type` to the metric function and the
four metric names; `none` when no branch matches (then `metric_fn` is
never bound). -/
def selectMetric (eval_type : Option String) :
    Option (MetricFn × String × String × String × String) :=
  if eval_type = some "f1" then
    some (MetricFn.calc_f1, "f1", "auc", "none", "none")
  else if eval_type = some "fmeasure" then
    some (MetricFn.calc_fmeasure, "f_mea", "mae", "none", "none")
  else if eval_type = some "ber" then
    some (MetricFn.calc_ber, "shadow", "non_shadow", "ber", "none")
  else if eval_type = some "cod" then
    some (MetricFn.calc_cod, "sm", "em", "wfm", "mae")
  else if eval_type = some "dice" then
    some (MetricFn.cal_dice_iou, "dice", "iou", "none", "none")
  else
    none

/-- Where a loss function is defined. `BBCEWithLogitLoss`
(train.py lines 22-39) and `_iou_loss` (train.py lines 41-47) are
defined in this repository; `torch.nn.BCEWithLogitsLoss` is the
framework's. -/
inductive Origin where
  | repo
  | torch
deriving DecidableEq, Repr

/-- The loss functions that can be applied to `(pred, gt)` in `train`
(train.py lines 178-188). -/
inductive LossFn where
  | bceWithLogits
  | bbce
  | iouLoss
deriving DecidableEq, Repr

/-- Definition site of each loss function: `bbce` is the class
`BBCEWithLogitLoss` defined at train.py lines 22-39 and `iouLoss` is
`_iou_loss` defined at train.py lines 41-47, both in this repository;
`bceWithLogits` is `torch.nn.BCEWithLogitsLoss` from the framework. -/
def LossFn.origin : LossFn → Origin
  | .bceWithLogits => .torch
  | .bbce => .repo
  | .iouLoss => .repo

/-- The loss expression computed for one batch. -/
inductive LossExpr where
  | apply (fn : LossFn) (pred gt : Tensor)
  | add (a b : LossExpr)

/-- The loss functions applied inside a loss expression. -/
def LossExpr.fns : LossExpr → List LossFn
  | .apply fn _ _ => [fn]
  | .add a b => a.fns ++ b.fns

/-- `batch_loss` as computed per batch in `train` (train.py lines
178-188): the `if/elif` chain binds `criterionBCE`, `batch_loss`
applies it, and the `iou` mode then adds `_iou_loss(pred, gt)`. For any
other `loss_mode`, `criterionBCE` is never bound, so using it raises a
`NameError`: modelled as `none`. -/
def batchLoss (loss_mode : String) (pred gt : Tensor) : Option LossExpr :=
  if loss_mode = "bce" then
    some (LossExpr.apply LossFn.bceWithLogits pred gt)
  else if loss_mode = "bbce" then
    some (LossExpr.apply LossFn.bbce pred gt)
  else if loss_mode = "iou" then
    some (LossExpr.add (LossExpr.apply LossFn.bceWithLogits pred gt)
      (LossExpr.apply LossFn.iouLoss pred gt))
  else
    none

/-- The loss-mode dispatch seen abstractly: which loss functions the
mode applies. -/
def lossTerms (loss_mode : String) : Option (List LossFn) :=
  (batchLoss loss_mode (Tensor.raw "pred") (Tensor.raw "gt")).map LossExpr.fns

/-- `save(config, model, save_path, name)` from train.py lines 308-319,
returned as the list of `torch.save` calls it performs. -/
def save (config : Config) (model : Model) (save_path name : String) :
    List FileWrite :=
  if config.modelCfg.name = "segformer" ∨ config.modelCfg.name = "setr" then
    if config.modelCfg.encoderModeName = "evp" then
      [⟨pathJoin save_path ("prompt_epoch_" ++ name ++ ".pth"),
        CheckpointContent.promptCkpt (StateDict.promptGenerator model)
          (StateDict.decodeHead model)⟩]
    else
      [⟨pathJoin save_path ("model_epoch_" ++ name ++ ".pth"),
        CheckpointContent.fullState (StateDict.ofModel model)⟩]
  else
    [⟨pathJoin save_path ("model_epoch_" ++ name ++ ".pth"),
      CheckpointContent.fullState (StateDict.ofModel model)⟩]

/-- One cell of a CSV row written by `csv.writer(...).writerow`. -/
inductive CsvCell where
  | int (i : Int)
  | rat (q : ℚ)
deriving DecidableEq, Repr

/-- One CSV row. -/
abbrev CsvRow := List CsvCell

/-- The path literal at train.py line 255. -/
def trainingLogPath : String := "./save/training_log.csv"

/-- The path literal at test.py line 127. -/
def testLogPath : String := "./save/test_log.csv"

/-- Observable actions of the scripts, in program order. `appendRow`
is a `csv.writer` row written to a file opened in mode `'a'`;
`saveCkpt` is a call to `save` (which itself performs the `torch.save`
described by `save`); `loadCheckpoint` is
`load_state_dict(torch.load(path))`. -/
inductive Event where
  | loadConfig
  | makeDataset (tag : String)
  | makeModel
  | makeOptimizer
  | makeScheduler
  | loadCheckpoint (path : String)
  | trainEpoch (epoch : Int)
  | schedulerStep (epoch : Int)
  | appendRow (path : String) (row : CsvRow)
  | saveCkpt (epoch : Int) (name : String)
  | evalVal (epoch : Int)
  | printMetrics (m1 m2 m3 m4 : ℚ)
  | logLine (epoch : Int)
deriving DecidableEq, Repr

/-- The rows appended to file `p` by a list of events, in order. -/
def rowsOf (p : String) (evs : List Event) : List CsvRow :=
  evs.filterMap fun ev =>
    match ev with
    | .appendRow q r => if q = p then some r else none
    | _ => none

/-- Content of a CSV file after a run: mode `'a'` appends, so the
initial rows are kept and the run's rows follow. -/
def fileAfter (initial : List CsvRow) (evs : List Event) (p : String) :
    List CsvRow :=
  initial ++ rowsOf p evs

/-- `torch.cat(pred_list, 1)` of the per-batch
`torch.sigmoid(model(inp, gt, num_points=1))` predictions
(train.py lines 120-137, test.py lines 71-88). -/
def predCat (model : Model) (loader : List Batch) : Tensor :=
  Tensor.cat1 (loader.map fun b =>
    Tensor.sigmoid (Tensor.forward model b.inp b.gt 1))

/-- `torch.cat(gt_list, 1)` of the per-batch ground truths. -/
def gtCat (loader : List Batch) : Tensor :=
  Tensor.cat1 (loader.map fun b => b.gt)

/-- `eval_psnr` from train.py lines 94-141. `metricEval` is the oracle
for the external metric functions in `utils`. When `eval_type` matches
no branch, `metric_fn` is unbound and its use at line 139 raises a
`NameError`. Returns the four results and the four metric names. -/
def eval_psnr_train (model : Model) (loader : List Batch)
    (eval_type : Option String)
    (metricEval : MetricFn → Tensor → Tensor → ℚ × ℚ × ℚ × ℚ) :
    Except PyErr ((ℚ × ℚ × ℚ × ℚ) × (String × String × String × String)) :=
  match selectMetric eval_type with
  | none => .error (PyErr.nameError "metric_fn")
  | some (fn, m1, m2, m3, m4) =>
      .ok (metricEval fn (predCat model loader) (gtCat loader),
           (m1, m2, m3, m4))

/-- Python `range(start, stop, step)` for a positive `step`. -/
def rangeStep (start stop step : Int) : List Int :=
  (List.range ((stop - start + step - 1) / step).toNat).map
    fun i : Nat => start + step * (i : Int)

/-- The `for threshold in range(10, 255, 10)` loop of test.py lines
90-92: re-binds `result1..result4` at every threshold. Returns the
list of thresholds at which the metric was evaluated and the final
bindings (`none` if the loop body never ran, leaving `result1`
unbound). -/
def thresholdLoop
    (metricEval : MetricFn → Tensor → Tensor → Int → ℚ × ℚ × ℚ × ℚ)
    (fn : MetricFn) (preds gts : Tensor) :
    List Int × Option (ℚ × ℚ × ℚ × ℚ) :=
  (rangeStep 10 255 10).foldl
    (fun acc t => (acc.1 ++ [t], some (metricEval fn preds gts t)))
    ([], none)

/-- `eval_psnr` from test.py lines 40-94. The `data_norm`, `eval_bsize`
and `verbose` parameters are accepted but (beyond the dead defaulting
of `data_norm`) never used on the modelled paths, mirroring the source.
Returns only the four results of the last threshold iteration. -/
def eval_psnr_test (model : Model) (loader : List Batch)
    (_data_norm : Option String) (eval_type : Option String)
    (_eval_bsize : Option Int) (_verbose : Bool)
    (metricEval : MetricFn → Tensor → Tensor → Int → ℚ × ℚ × ℚ × ℚ) :
    Except PyErr (ℚ × ℚ × ℚ × ℚ) :=
  match selectMetric eval_type with
  | none => .error (PyErr.nameError "metric_fn")
  | some (fn, _, _, _, _) =>
      match thresholdLoop metricEval fn (predCat model loader) (gtCat loader) with
      | (_, none) => .error (PyErr.nameError "result1")
      | (_, some r) => .ok r

/-- The external world the scripts call into: per-epoch training loss
(`train`'s return value), the validation loader's batches, the test
loader's batches, and the `utils` metric functions (the test script's
take an extra threshold argument). -/
structure Oracle where
  trainLoss : Int → ℚ
  valBatches : List Batch
  testBatches : List Batch
  metricEval : MetricFn → Tensor → Tensor → ℚ × ℚ × ℚ × ℚ
  metricEvalT : MetricFn → Tensor → Tensor → Int → ℚ × ℚ × ℚ × ℚ

/-- The argparse result of test.py lines 98-102. -/
structure TestArgs where
  config : String
  model : String
  prompt : String
deriving DecidableEq, Repr

/-- Argument parsing of test.py lines 98-102: `--prompt` defaults to
the string `'none'` when not supplied. -/
def parseTestArgs (configArg modelArg : String) (promptArg : Option String) :
    TestArgs :=
  { config := configArg, model := modelArg,
    prompt := promptArg.getD "none" }

/-- The `__main__` block of test.py lines 97-130, as the events it
performs and the four metrics it prints/logs. The loaded YAML is `cfg`;
dataset/loader construction and `models.make` are symbolic; the
checkpoint at `args.model` is loaded into the model; `eval_psnr` runs;
then `epoch = config['resume']` (a `KeyError` when absent) and one row
is appended to `./save/test_log.csv`. -/
def testRun (args : TestArgs) (cfg : Config) (oracle : Oracle) :
    Except PyErr (List Event × (ℚ × ℚ × ℚ × ℚ)) :=
  let ev := [Event.loadConfig, Event.makeDataset "test",
             Event.makeDataset "test-wrapper", Event.makeModel,
             Event.loadCheckpoint args.model]
  let model := Model.loadStateDict (Model.make cfg.modelCfg) args.model
  match eval_psnr_test model oracle.testBatches none cfg.eval_type none
      true oracle.metricEvalT with
  | .error e => .error e
  | .ok (m1, m2, m3, m4) =>
      match cfg.resume with
      | none => .error (PyErr.keyError "resume")
      | some epoch =>
          .ok (ev ++ [Event.printMetrics m1 m2 m3 m4,
                      Event.appendRow testLogPath
                        [CsvCell.int epoch, CsvCell.rat m1, CsvCell.rat m2,
                         CsvCell.rat m3, CsvCell.rat m4]],
               (m1, m2, m3, m4))

/-- The outputs of `prepare_training` (train.py lines 144-158). -/
structure PrepOut where
  model : Model
  optimizer : Optimizer
  epoch_start : Int
  lr_scheduler : Scheduler
deriving DecidableEq, Repr

/-- `prepare_training` from train.py lines 144-158, with the external
constructions it performs as events. Both arms of the `if
config.get('resume') is not None` construct the model and optimizer
with identical code; only `epoch_start` differs; the scheduler and the
parameter-count log line follow the branch. Neither arm loads any
checkpoint. -/
def prepare_training (config : Config) : PrepOut × List Event :=
  let (model, optimizer, epoch_start, evs) :=
    match config.resume with
    | some r =>
        let model := Model.make config.modelCfg
        (model, Optimizer.make model config.optimizerSpec, r + 1,
         [Event.makeModel, Event.makeOptimizer])
    | none =>
        let model := Model.make config.modelCfg
        (model, Optimizer.make model config.optimizerSpec, (1 : Int),
         [Event.makeModel, Event.makeOptimizer])
  ({ model := model, optimizer := optimizer, epoch_start := epoch_start,
     lr_scheduler := Scheduler.cosine optimizer config.epoch_max config.lr_min },
   evs ++ [Event.makeScheduler])

/-- Python `range(start, stop)` over integers (step 1). -/
def epochRange (start stop : Int) : List Int :=
  (List.range (stop - start).toNat).map fun i : Nat => start + (i : Int)

/-- The list of epochs the loop at train.py line 247 iterates:
`range(epoch_start, epoch_max + 1)`. -/
def epochLoop (cfg : Config) : List Int :=
  epochRange (prepare_training cfg).1.epoch_start (cfg.epoch_max + 1)

/-- The mutable loop state of `main`'s epoch loop. -/
structure LoopState where
  model : Model
  best_loss : ℚ
  max_val_v : ℚ
  events : List Event
deriving Repr

/-- The CSV row `[epoch, train_loss_G]` written at train.py line 257. -/
def epochRow (oracle : Oracle) (epoch : Int) : CsvRow :=
  [CsvCell.int epoch, CsvCell.rat (oracle.trainLoss epoch)]

/-- Lines 272-274: update `best_loss` and conditionally
`save(config, model, save_path, 'best_loss')`. -/
def bestLossUpdate (loss best : ℚ) (epoch : Int) : ℚ × List Event :=
  if loss < best then (loss, [Event.saveCkpt epoch "best_loss"])
  else (best, [])

/-- Lines 276-305: when `epoch_val` is set and divides the epoch
(`epoch % epoch_val` raises `ZeroDivisionError` when it is zero), run
`eval_psnr` (whose `NameError` propagates), conditionally
`save(..., 'best')` per the `'ber'`-dependent comparison, then the
`log(...)` call — all inside the divisibility branch. Returns the new
`max_val_v` and the events of this branch. -/
def valStep (cfg : Config) (oracle : Oracle) (model : Model)
    (max_val_v : ℚ) (epoch : Int) : Except PyErr (ℚ × List Event) :=
  match cfg.epoch_val with
  | none => .ok (max_val_v, [])
  | some v =>
      if v = 0 then .error PyErr.zeroDivisionError
      else if epoch % v = 0 then
        match eval_psnr_train model oracle.valBatches cfg.eval_type
            oracle.metricEval with
        | .error e => .error e
        | .ok ((r1, _, r3, _), _) =>
            let (maxv, bp) :=
              if cfg.eval_type ≠ some "ber" then
                if r1 > max_val_v then
                  (r1, [Event.saveCkpt epoch "best"])
                else (max_val_v, [])
              else
                if r3 < max_val_v then
                  (r3, [Event.saveCkpt epoch "best"])
                else (max_val_v, [])
            .ok (maxv, Event.evalVal epoch :: (bp ++ [Event.logLine epoch]))
      else .ok (max_val_v, [])

/-- One iteration of the epoch loop (train.py lines 247-305). Per the
source order: `train` (whose loss-mode `if/elif` leaves `criterionBCE`
unbound — a `NameError` — for unknown modes, given a nonempty train
loader), `lr_scheduler.step()`, the append of `[epoch, train_loss_G]`
to `./save/training_log.csv`, `save(..., 'last')`, conditionally
`save(..., 'best_loss')`, then the validation branch of `valStep`. -/
def epochStep (cfg : Config) (oracle : Oracle) (st : LoopState)
    (epoch : Int) : Except PyErr LoopState :=
  match lossTerms cfg.modelCfg.loss with
  | none => .error (PyErr.nameError "criterionBCE")
  | some _ =>
  let model := Model.trainStep st.model epoch
  let loss := oracle.trainLoss epoch
  let (best_loss, bl) := bestLossUpdate loss st.best_loss epoch
  match valStep cfg oracle model st.max_val_v epoch with
  | .error e => .error e
  | .ok (max_val_v, vp) =>
      .ok ⟨model, best_loss, max_val_v,
        st.events ++
          ([Event.trainEpoch epoch, Event.schedulerStep epoch,
            Event.appendRow trainingLogPath (epochRow oracle epoch),
            Event.saveCkpt epoch "last"] ++ bl ++ vp)⟩

/-- The events performed before the epoch loop: config load in
`__main__` (train.py line 330), dataset construction in
`make_data_loaders`, `prepare_training`, the second
`CosineAnnealingLR` at line 221, and the SAM checkpoint load at lines
225-226. -/
def preLoopEvents (cfg : Config) : List Event :=
  [Event.loadConfig, Event.makeDataset "train", Event.makeDataset "val"] ++
    (prepare_training cfg).2 ++
    [Event.makeScheduler, Event.loadCheckpoint cfg.sam_checkpoint]

/-- The whole training run: `__main__` plus `main` of train.py. After
the pre-loop setup, line 241 reads `config['eval_type']` (a `KeyError`
when absent) to initialise `max_val_v`, `best_loss` starts at `1e8`,
and the loop runs over `range(epoch_start, epoch_max + 1)`. Returns
the event trace and the final model. -/
def trainRun (cfg : Config) (oracle : Oracle) :
    Except PyErr (List Event × Model) :=
  let model := Model.loadStateDict (prepare_training cfg).1.model
    cfg.sam_checkpoint
  match cfg.eval_type with
  | none => .error (PyErr.keyError "eval_type")
  | some et =>
      let max_val_v : ℚ :=
        if et ≠ "ber" then -1000000000000000000 else 100000000
      match (epochLoop cfg).foldlM (epochStep cfg oracle)
          ⟨model, 100000000, max_val_v, preLoopEvents cfg⟩ with
      | .error e => .error e
      | .ok st => .ok (st.events, st.model)

/-- Event trace of a run result (empty on error). -/
def evtsOf (r : Except PyErr (List Event × Model)) : List Event :=
  match r with
  | .ok (evs, _) => evs
  | .error _ => []

/-- Final model of a run result. -/
def modelOfRun (r : Except PyErr (List Event × Model)) : Model :=
  match r with
  | .ok (_, m) => m
  | .error _ => Model.make ⟨"", "", ""⟩

/-- The while loop of test.py lines 23-27: `ql` starts at 0, each pass
queries the slice `coord[:, ql:qr, :]` with `qr = min(ql + bsize, n)`
and sets `ql = qr`. Dimension 1 of `coord` is modelled as the list of
its columns, so the slice is `take bsize` of what remains. The
recursion consumes `take bsize / drop bsize`, which is exactly the
loop's slicing whenever `bsize ≥ 1` (for `bsize = 0` the Python loop
would not advance `ql`). -/
def bpGo (query : List α → Tensor) (bsize : Nat) : List α → List Tensor
  | [] => []
  | x :: xs =>
      query (x :: xs.take (bsize - 1)) :: bpGo query bsize (xs.drop (bsize - 1))
  termination_by l => l.length
  decreasing_by
    simp only [List.length_drop, List.length_cons]
    omega

/-- `batched_predict` from test.py lines 17-29: runs the query loop,
then `pred = torch.cat(preds, dim=1)`, returning `(pred, preds)`. -/
def batched_predict (query : List α → Tensor) (coord : List α)
    (bsize : Nat) : Tensor × List Tensor :=
  let preds := bpGo query bsize coord
  (Tensor.cat1 preds, preds)

/-- The successive slices `coord[:, ql:qr, :]` taken by the loop. -/
def chunks (bsize : Nat) : List α → List (List α)
  | [] => []
  | x :: xs => (x :: xs.take (bsize - 1)) :: chunks bsize (xs.drop (bsize - 1))
  termination_by l => l.length
  decreasing_by
    simp only [List.length_drop, List.length_cons]
    omega

/-! Concrete instances used by witnesses and counterexamples. -/

/-- A concrete model configuration (non-segformer/setr, bce loss). -/
def modelCfgW : ModelConfig := ⟨"sam", "none", "bce"⟩

/-- A concrete model. -/
def modelW : Model := Model.make modelCfgW

/-- A concrete metric oracle for the train-side metric functions. -/
def metricEvalW : MetricFn → Tensor → Tensor → ℚ × ℚ × ℚ × ℚ :=
  fun _ _ _ => (1, 0, 0, 0)

/-- A concrete metric oracle for the test-side (threshold-taking)
metric functions. -/
def metricEvalTW : MetricFn → Tensor → Tensor → Int → ℚ × ℚ × ℚ × ℚ :=
  fun _ _ _ _ => (1, 0, 0, 0)

/-- A concrete oracle. -/
def oracleW : Oracle :=
  { trainLoss := fun _ => 1, valBatches := [], testBatches := [],
    metricEval := metricEvalW, metricEvalT := metricEvalTW }

/-- A concrete config: 1 epoch, validation every epoch, dice metric. -/
def cfgW : Config :=
  { modelCfg := modelCfgW, optimizerSpec := "adamw", epoch_max := 1,
    epoch_val := some 1, lr_min := 0, eval_type := some "dice",
    sam_checkpoint := "sam.pth", resume := none }

/-- `cfgW` with an `eval_type` outside the five dispatched strings. -/
def cfgBadEval : Config := { cfgW with eval_type := some "psnr" }

/-- A concrete pred tensor. -/
def predW : Tensor := Tensor.raw "pred"

/-- A concrete gt tensor. -/
def gtW : Tensor := Tensor.raw "gt"

/-- The five `eval_type` strings that bind `metric_fn`. -/
def dispatchedEvalTypes : List (Option String) :=
  [some "f1", some "fmeasure", some "ber", some "cod", some "dice"]

lemma selectMetric_eq_none {et : Option String}
    (h : et ∉ dispatchedEvalTypes) : selectMetric et = none := by
  simp only [dispatchedEvalTypes, List.mem_cons, List.not_mem_nil, or_false,
    not_or] at h
  obtain ⟨h1, h2, h3, h4, h5⟩ := h
  unfold selectMetric
  rw [if_neg h1, if_neg h2, if_neg h3, if_neg h4, if_neg h5]

/-- C1: in both scripts' `eval_psnr` the `eval_type` string selects the
metric function ('f1' ↦ `utils.calc_f1`, 'fmeasure' ↦
`utils.calc_fmeasure`, 'ber' ↦ `utils.calc_ber`, 'cod' ↦
`utils.calc_cod`, 'dice' ↦ `utils.cal_dice_iou`), and any `eval_type`
outside those five strings (including `None`) leaves `metric_fn`
unbound, so `eval_psnr` fails with an uncaught `NameError` that no
handler in the repository catches (the caller `testRun` returns the
same error). -/
theorem c1_eval_type_dispatch :
    selectMetric (some "f1") =
      some (MetricFn.calc_f1, "f1", "auc", "none", "none") ∧
    selectMetric (some "fmeasure") =
      some (MetricFn.calc_fmeasure, "f_mea", "mae", "none", "none") ∧
    selectMetric (some "ber") =
      some (MetricFn.calc_ber, "shadow", "non_shadow", "ber", "none") ∧
    selectMetric (some "cod") =
      some (MetricFn.calc_cod, "sm", "em", "wfm", "mae") ∧
    selectMetric (some "dice") =
      some (MetricFn.cal_dice_iou, "dice", "iou", "none", "none") ∧
    (∀ model loader et me fn m1 m2 m3 m4,
      selectMetric et = some (fn, m1, m2, m3, m4) →
      eval_psnr_train model loader et me =
        Except.ok (me fn (predCat model loader) (gtCat loader),
          (m1, m2, m3, m4))) ∧
    (∀ et, et ∉ dispatchedEvalTypes →
      (∀ model loader me,
        eval_psnr_train model loader et me =
          Except.error (PyErr.nameError "metric_fn")) ∧
      (∀ model loader dn eb vb mt,
        eval_psnr_test model loader dn et eb vb mt =
          Except.error (PyErr.nameError "metric_fn")) ∧
      (∀ args cfg oracle, cfg.eval_type = et →
        testRun args cfg oracle =
          Except.error (PyErr.nameError "metric_fn"))) := by
  refine ⟨rfl, rfl, rfl, rfl, rfl, ?_, ?_⟩
  · intro model loader et me fn m1 m2 m3 m4 h
    simp [eval_psnr_train, h]
  · intro et h
    have hn := selectMetric_eq_none h
    refine ⟨?_, ?_, ?_⟩
    · intro model loader me
      simp [eval_psnr_train, hn]
    · intro model loader dn eb vb mt
      simp [eval_psnr_test, hn]
    · intro args cfg oracle hcfg
      simp [testRun, eval_psnr_test, hcfg, hn]

/-- Witness for C1 at concrete inputs: 'psnr' is outside the five
dispatched strings and both `eval_psnr`s and the test script fail with
the `metric_fn` `NameError`; 'dice' dispatches to `cal_dice_iou`. -/
theorem c1_eval_type_dispatch_witness :
    selectMetric (some "dice") =
      some (MetricFn.cal_dice_iou, "dice", "iou", "none", "none") ∧
    (some "psnr") ∉ dispatchedEvalTypes ∧
    eval_psnr_train modelW [] (some "psnr") metricEvalW =
      Except.error (PyErr.nameError "metric_fn") ∧
    eval_psnr_test modelW [] none (some "psnr") none true metricEvalTW =
      Except.error (PyErr.nameError "metric_fn") ∧
    testRun (parseTestArgs "cfg.yaml" "model.pth" none) cfgBadEval oracleW =
      Except.error (PyErr.nameError "metric_fn") := by
  have h : (some "psnr") ∉ dispatchedEvalTypes := by decide
  have hc := c1_eval_type_dispatch.2.2.2.2.2.2 (some "psnr") h
  exact ⟨c1_eval_type_dispatch.2.2.2.2.1, h,
    hc.1 modelW [] metricEvalW,
    hc.2.1 modelW [] none none true metricEvalTW,
    hc.2.2 (parseTestArgs "cfg.yaml" "model.pth" none) cfgBadEval oracleW rfl⟩

/-- C2 counterexample: the claim "every loss applied during training is
delegated to external code" fails at `loss_mode = 'bbce'`: the
`batch_loss` there applies `BBCEWithLogitLoss`, a loss class defined in
train.py itself (lines 22-39). -/
theorem c2_external_loss_counterexample :
    batchLoss "bbce" predW gtW =
      some (LossExpr.apply LossFn.bbce predW gtW) ∧
    ¬ ∀ fn ∈ (LossExpr.apply LossFn.bbce predW gtW).fns,
        LossFn.origin fn = Origin.torch := by
  refine ⟨rfl, ?_⟩
  intro h
  have := h LossFn.bbce (by simp [LossExpr.fns])
  simp [LossFn.origin] at this

/-- C2 amended: only the 'bce' loss mode computes `batch_loss` purely
with external code; the 'bbce' and 'iou' modes apply loss functions
defined in this repository (`BBCEWithLogitLoss`, `_iou_loss`), which
themselves call framework primitives; any other mode leaves
`criterionBCE` unbound. -/
theorem c2_loss_mode_dispatch :
    ∀ pred gt,
    batchLoss "bce" pred gt =
      some (LossExpr.apply LossFn.bceWithLogits pred gt) ∧
    (∀ fn ∈ (LossExpr.apply LossFn.bceWithLogits pred gt).fns,
      LossFn.origin fn = Origin.torch) ∧
    batchLoss "bbce" pred gt =
      some (LossExpr.apply LossFn.bbce pred gt) ∧
    LossFn.origin LossFn.bbce = Origin.repo ∧
    batchLoss "iou" pred gt =
      some (LossExpr.add (LossExpr.apply LossFn.bceWithLogits pred gt)
        (LossExpr.apply LossFn.iouLoss pred gt)) ∧
    LossFn.origin LossFn.iouLoss = Origin.repo ∧
    (∀ mode, mode ∉ ["bce", "bbce", "iou"] → batchLoss mode pred gt = none) := by
  intro pred gt
  refine ⟨rfl, ?_, rfl, rfl, rfl, rfl, ?_⟩
  · intro fn hfn
    simp only [LossExpr.fns, List.mem_singleton] at hfn
    subst hfn
    rfl
  · intro mode h
    simp only [List.mem_cons, List.not_mem_nil, or_false, not_or] at h
    obtain ⟨h1, h2, h3⟩ := h
    unfold batchLoss
    rw [if_neg h1, if_neg h2, if_neg h3]

/-- Witness for C2's amended theorem at concrete inputs. -/
theorem c2_loss_mode_dispatch_witness :
    batchLoss "bbce" predW gtW =
      some (LossExpr.apply LossFn.bbce predW gtW) ∧
    "focal" ∉ ["bce", "bbce", "iou"] ∧
    batchLoss "focal" predW gtW = none :=
  ⟨(c2_loss_mode_dispatch predW gtW).2.2.1, by decide,
   (c2_loss_mode_dispatch predW gtW).2.2.2.2.2.2 "focal" (by decide)⟩

/-- C3: every call to `save(config, model, save_path, name)` performs
exactly one `torch.save`; it writes `prompt_epoch_<name>.pth` (holding
the prompt-generator and decode-head state dicts) precisely when
`config['model']['name']` is 'segformer' or 'setr' and
`config['model']['args']['encoder_mode']['name']` is 'evp'; otherwise
it writes `model_epoch_<name>.pth` holding the full `state_dict()`. -/
theorem c3_save_one_checkpoint :
    ∀ cfg m p n,
    (save cfg m p n).length = 1 ∧
    save cfg m p n =
      (if (cfg.modelCfg.name = "segformer" ∨ cfg.modelCfg.name = "setr") ∧
          cfg.modelCfg.encoderModeName = "evp" then
        [⟨pathJoin p ("prompt_epoch_" ++ n ++ ".pth"),
          CheckpointContent.promptCkpt (StateDict.promptGenerator m)
            (StateDict.decodeHead m)⟩]
      else
        [⟨pathJoin p ("model_epoch_" ++ n ++ ".pth"),
          CheckpointContent.fullState (StateDict.ofModel m)⟩]) ∧
    (save cfg m p n =
        [⟨pathJoin p ("prompt_epoch_" ++ n ++ ".pth"),
          CheckpointContent.promptCkpt (StateDict.promptGenerator m)
            (StateDict.decodeHead m)⟩] ↔
      ((cfg.modelCfg.name = "segformer" ∨ cfg.modelCfg.name = "setr") ∧
        cfg.modelCfg.encoderModeName = "evp")) := by
  intro cfg m p n
  unfold save
  by_cases h1 : cfg.modelCfg.name = "segformer" ∨ cfg.modelCfg.name = "setr"
  · by_cases h2 : cfg.modelCfg.encoderModeName = "evp"
    · simp [h1, h2]
    · simp [h1, h2]
  · simp [h1]

/-- The validation condition of train.py line 276-277: `epoch_val` is
present (and nonzero, else line 277 raises) and divides the epoch. -/
def valCond (cfg : Config) (e : Int) : Prop :=
  ∃ v, cfg.epoch_val = some v ∧ v ≠ 0 ∧ e % v = 0

/-- The shape of the event block one successful epoch iteration
appends: the fixed prefix `train`, `scheduler.step`, the training-log
row, the 'last' checkpoint; then an optional 'best_loss' checkpoint;
then, exactly when `valCond` holds, validation followed by an optional
'best' checkpoint and the log line. -/
def BlockShape (cfg : Config) (oracle : Oracle) (e : Int)
    (b : List Event) : Prop :=
  ∃ bl vp,
    b = [Event.trainEpoch e, Event.schedulerStep e,
         Event.appendRow trainingLogPath (epochRow oracle e),
         Event.saveCkpt e "last"] ++ bl ++ vp ∧
    (bl = [] ∨ bl = [Event.saveCkpt e "best_loss"]) ∧
    ((vp = [] ∧ ¬ valCond cfg e) ∨
     (valCond cfg e ∧ ∃ bp,
       (bp = [] ∨ bp = [Event.saveCkpt e "best"]) ∧
       vp = Event.evalVal e :: (bp ++ [Event.logLine e])))

lemma valStep_ok_shape {cfg : Config} {oracle : Oracle} {model : Model}
    {maxv : ℚ} {e : Int} {p : ℚ × List Event}
    (h : valStep cfg oracle model maxv e = .ok p) :
    (p.2 = [] ∧ ¬ valCond cfg e) ∨
    (valCond cfg e ∧ ∃ bp,
      (bp = [] ∨ bp = [Event.saveCkpt e "best"]) ∧
      p.2 = Event.evalVal e :: (bp ++ [Event.logLine e])) := by
  unfold valStep at h
  cases hev : cfg.epoch_val with
  | none =>
      rw [hev] at h
      dsimp only at h
      injection h with h
      subst h
      refine Or.inl ⟨rfl, ?_⟩
      rintro ⟨v, hv, -, -⟩
      rw [hev] at hv
      cases hv
  | some v =>
      rw [hev] at h
      dsimp only at h
      by_cases hv0 : v = 0
      · rw [if_pos hv0] at h
        cases h
      · rw [if_neg hv0] at h
        by_cases hmod : e % v = 0
        · rw [if_pos hmod] at h
          cases hr : eval_psnr_train model oracle.valBatches cfg.eval_type
              oracle.metricEval with
          | error err => rw [hr] at h; cases h
          | ok r =>
              rw [hr] at h
              obtain ⟨⟨r1, r2, r3, r4⟩, ms⟩ := r
              dsimp only at h
              by_cases hbt : cfg.eval_type ≠ some "ber"
              · rw [if_pos hbt] at h
                by_cases hcmp : r1 > maxv
                · rw [if_pos hcmp] at h
                  dsimp only at h
                  injection h with h
                  subst h
                  exact Or.inr ⟨⟨v, hev, hv0, hmod⟩,
                    [Event.saveCkpt e "best"], Or.inr rfl, rfl⟩
                · rw [if_neg hcmp] at h
                  dsimp only at h
                  injection h with h
                  subst h
                  exact Or.inr ⟨⟨v, hev, hv0, hmod⟩, [], Or.inl rfl, rfl⟩
              · rw [if_neg hbt] at h
                by_cases hcmp : r3 < maxv
                · rw [if_pos hcmp] at h
                  dsimp only at h
                  injection h with h
                  subst h
                  exact Or.inr ⟨⟨v, hev, hv0, hmod⟩,
                    [Event.saveCkpt e "best"], Or.inr rfl, rfl⟩
                · rw [if_neg hcmp] at h
                  dsimp only at h
                  injection h with h
                  subst h
                  exact Or.inr ⟨⟨v, hev, hv0, hmod⟩, [], Or.inl rfl, rfl⟩
        · rw [if_neg hmod] at h
          injection h with h
          subst h
          refine Or.inl ⟨rfl, ?_⟩
          rintro ⟨v2, hv2, -, hm2⟩
          rw [hev] at hv2
          injection hv2 with hv2
          subst hv2
          exact hmod hm2

lemma epochStep_ok_shape {cfg : Config} {oracle : Oracle} {st st' : LoopState}
    {e : Int} (h : epochStep cfg oracle st e = .ok st') :
    ∃ b, st'.events = st.events ++ b ∧ BlockShape cfg oracle e b := by
  unfold epochStep at h
  cases hlt : lossTerms cfg.modelCfg.loss with
  | none => rw [hlt] at h; cases h
  | some ts =>
      rw [hlt] at h
      dsimp only at h
      rcases hbu : bestLossUpdate (oracle.trainLoss e) st.best_loss e with
        ⟨bloss, bl⟩
      rw [hbu] at h
      dsimp only at h
      cases hval : valStep cfg oracle (Model.trainStep st.model e)
          st.max_val_v e with
      | error err => rw [hval] at h; cases h
      | ok q =>
          obtain ⟨maxv, vp⟩ := q
          rw [hval] at h
          dsimp only at h
          injection h with h
          subst h
          refine ⟨_, rfl, bl, vp, rfl, ?_, ?_⟩
          · unfold bestLossUpdate at hbu
            by_cases hc : oracle.trainLoss e < st.best_loss
            · rw [if_pos hc] at hbu
              injection hbu with h1 h2
              exact Or.inr h2.symm
            · rw [if_neg hc] at hbu
              injection hbu with h1 h2
              exact Or.inl h2.symm
          · simpa using valStep_ok_shape hval

lemma foldlM_epochStep_shape (cfg : Config) (oracle : Oracle) :
    ∀ (l : List Int) (st st' : LoopState),
      l.foldlM (epochStep cfg oracle) st = .ok st' →
      ∃ blocks : List (List Event),
        st'.events = st.events ++ blocks.flatten ∧
        List.Forall₂ (BlockShape cfg oracle) l blocks := by
  intro l
  induction l with
  | nil =>
      intro st st' h
      injection h with h
      subst h
      exact ⟨[], by simp, List.Forall₂.nil⟩
  | cons e es ih =>
      intro st st' h
      rw [List.foldlM_cons] at h
      cases hstep : epochStep cfg oracle st e with
      | error err => rw [hstep] at h; cases h
      | ok st1 =>
          rw [hstep] at h
          obtain ⟨b, hb, hshape⟩ := epochStep_ok_shape hstep
          obtain ⟨blocks, hbl, hfa⟩ := ih st1 st' h
          refine ⟨b :: blocks, ?_, List.Forall₂.cons hshape hfa⟩
          rw [hbl, hb]
          simp

lemma prepare_training_events (cfg : Config) :
    (prepare_training cfg).2 =
      [Event.makeModel, Event.makeOptimizer, Event.makeScheduler] := by
  unfold prepare_training
  cases cfg.resume <;> rfl

lemma preLoopEvents_eq (cfg : Config) :
    preLoopEvents cfg =
      [Event.loadConfig, Event.makeDataset "train", Event.makeDataset "val",
       Event.makeModel, Event.makeOptimizer, Event.makeScheduler,
       Event.makeScheduler, Event.loadCheckpoint cfg.sam_checkpoint] := by
  unfold preLoopEvents
  rw [prepare_training_events]
  rfl

lemma trainRun_ok_shape {cfg : Config} {oracle : Oracle} {E : List Event}
    {m : Model} (h : trainRun cfg oracle = .ok (E, m)) :
    ∃ blocks : List (List Event),
      E = preLoopEvents cfg ++ blocks.flatten ∧
      List.Forall₂ (BlockShape cfg oracle) (epochLoop cfg) blocks := by
  unfold trainRun at h
  cases het : cfg.eval_type with
  | none => rw [het] at h; cases h
  | some et =>
      rw [het] at h
      dsimp only at h
      cases hfold : (epochLoop cfg).foldlM (epochStep cfg oracle)
          ⟨Model.loadStateDict (prepare_training cfg).1.model
             cfg.sam_checkpoint, 100000000,
           if et ≠ "ber" then -1000000000000000000 else 100000000,
           preLoopEvents cfg⟩ with
      | error err => rw [hfold] at h; cases h
      | ok st =>
          rw [hfold] at h
          dsimp only at h
          injection h with h
          obtain ⟨blocks, hbl, hfa⟩ :=
            foldlM_epochStep_shape cfg oracle _ _ _ hfold
          refine ⟨blocks, ?_, hfa⟩
          have hE : E = st.events := (congrArg Prod.fst h).symm
          rw [hE, hbl]

lemma rowsOf_append (p : String) (a b : List Event) :
    rowsOf p (a ++ b) = rowsOf p a ++ rowsOf p b :=
  List.filterMap_append ..

lemma blockShape_rows {cfg : Config} {oracle : Oracle} {e : Int}
    {b : List Event} (h : BlockShape cfg oracle e b) :
    rowsOf trainingLogPath b = [epochRow oracle e] := by
  obtain ⟨bl, vp, rfl, hbl, hvp⟩ := h
  rw [rowsOf_append, rowsOf_append]
  have h4 : rowsOf trainingLogPath
      [Event.trainEpoch e, Event.schedulerStep e,
       Event.appendRow trainingLogPath (epochRow oracle e),
       Event.saveCkpt e "last"] = [epochRow oracle e] := by
    simp [rowsOf]
  have hbl2 : rowsOf trainingLogPath bl = [] := by
    rcases hbl with rfl | rfl <;> simp [rowsOf]
  have hvp2 : rowsOf trainingLogPath vp = [] := by
    rcases hvp with ⟨rfl, -⟩ | ⟨-, bp, hbp, rfl⟩
    · simp [rowsOf]
    · rcases hbp with rfl | rfl <;> simp [rowsOf]
  rw [h4, hbl2, hvp2]
  simp

lemma forall₂_blocks_rows {cfg : Config} {oracle : Oracle} :
    ∀ {l : List Int} {blocks : List (List Event)},
      List.Forall₂ (BlockShape cfg oracle) l blocks →
      rowsOf trainingLogPath blocks.flatten = l.map (epochRow oracle) := by
  intro l blocks h
  induction h with
  | nil => simp [rowsOf]
  | cons h1 h2 ih =>
      rename_i e b es bs
      simp only [List.flatten_cons, rowsOf_append, List.map_cons]
      rw [blockShape_rows h1, ih]
      rfl

lemma rowsOf_preLoop (cfg : Config) :
    rowsOf trainingLogPath (preLoopEvents cfg) = [] := by
  rw [preLoopEvents_eq]
  simp [rowsOf]

/-- C4: the CSV logs are append-only with rows `[epoch, metric...]`:
a successful training run appends to `./save/training_log.csv` exactly
one row `[epoch, train_loss]` per epoch, in epoch order, leaving prior
rows untouched; a successful test.py run appends to
`./save/test_log.csv` exactly one row
`[epoch, metric1, metric2, metric3, metric4]` with the epoch taken
from `config['resume']`, leaving prior rows untouched. -/
theorem c4_csv_logs_append_only :
    (∀ (cfg : Config) (oracle : Oracle) (E : List Event) (m : Model)
       (initial : List CsvRow),
      trainRun cfg oracle = .ok (E, m) →
      rowsOf trainingLogPath E = (epochLoop cfg).map (epochRow oracle) ∧
      fileAfter initial E trainingLogPath =
        initial ++ (epochLoop cfg).map (epochRow oracle)) ∧
    (∀ (args : TestArgs) (cfg : Config) (oracle : Oracle) (E : List Event)
       (res : ℚ × ℚ × ℚ × ℚ) (initial : List CsvRow),
      testRun args cfg oracle = .ok (E, res) →
      ∃ r, cfg.resume = some r ∧
        rowsOf testLogPath E =
          [[CsvCell.int r, CsvCell.rat res.1, CsvCell.rat res.2.1,
            CsvCell.rat res.2.2.1, CsvCell.rat res.2.2.2]] ∧
        fileAfter initial E testLogPath =
          initial ++
            [[CsvCell.int r, CsvCell.rat res.1, CsvCell.rat res.2.1,
              CsvCell.rat res.2.2.1, CsvCell.rat res.2.2.2]]) := by
  constructor
  · intro cfg oracle E m initial h
    obtain ⟨blocks, hE, hfa⟩ := trainRun_ok_shape h
    have hrows : rowsOf trainingLogPath E =
        (epochLoop cfg).map (epochRow oracle) := by
      rw [hE, rowsOf_append, rowsOf_preLoop, forall₂_blocks_rows hfa]
      rfl
    exact ⟨hrows, by rw [fileAfter, hrows]⟩
  · intro args cfg oracle E res initial h
    unfold testRun at h
    dsimp only at h
    cases heval : eval_psnr_test
        (Model.loadStateDict (Model.make cfg.modelCfg) args.model)
        oracle.testBatches none cfg.eval_type none true oracle.metricEvalT with
    | error err => rw [heval] at h; cases h
    | ok q =>
        obtain ⟨m1, m2, m3, m4⟩ := q
        rw [heval] at h
        dsimp only at h
        cases hres : cfg.resume with
        | none => rw [hres] at h; cases h
        | some r =>
            rw [hres] at h
            dsimp only at h
            injection h with h
            have hE : E = _ := (congrArg Prod.fst h).symm
            have hr4 : res = (m1, m2, m3, m4) := (congrArg Prod.snd h).symm
            subst hr4
            refine ⟨r, rfl, ?_, ?_⟩
            · rw [hE]
              simp [rowsOf, testLogPath, trainingLogPath]
            · rw [fileAfter, hE]
              simp [rowsOf, testLogPath, trainingLogPath]

/-- A concrete test config whose `resume` is set, as test.py requires. -/
def cfgTest : Config := { cfgW with resume := some 7 }

/-- Event trace of a test run result (empty on error). -/
def testEvtsOf (r : Except PyErr (List Event × (ℚ × ℚ × ℚ × ℚ))) :
    List Event :=
  match r with
  | .ok (evs, _) => evs
  | .error _ => []

/-- Metric quadruple of a test run result (zeros on error). -/
def testResOf (r : Except PyErr (List Event × (ℚ × ℚ × ℚ × ℚ))) :
    ℚ × ℚ × ℚ × ℚ :=
  match r with
  | .ok (_, q) => q
  | .error _ => (0, 0, 0, 0)

/-- Witness for C4 at a concrete config and oracle, for both the
training run and the test run. -/
theorem c4_csv_logs_append_only_witness :
    trainRun cfgW oracleW =
      .ok (evtsOf (trainRun cfgW oracleW),
           modelOfRun (trainRun cfgW oracleW)) ∧
    rowsOf trainingLogPath (evtsOf (trainRun cfgW oracleW)) =
      (epochLoop cfgW).map (epochRow oracleW) ∧
    testRun (parseTestArgs "cfg.yaml" "model.pth" none) cfgTest oracleW =
      .ok (testEvtsOf (testRun (parseTestArgs "cfg.yaml" "model.pth" none)
             cfgTest oracleW),
           testResOf (testRun (parseTestArgs "cfg.yaml" "model.pth" none)
             cfgTest oracleW)) ∧
    ∃ r, cfgTest.resume = some r ∧
      rowsOf testLogPath (testEvtsOf
          (testRun (parseTestArgs "cfg.yaml" "model.pth" none)
            cfgTest oracleW)) =
        [[CsvCell.int r,
          CsvCell.rat (testResOf (testRun
            (parseTestArgs "cfg.yaml" "model.pth" none) cfgTest oracleW)).1,
          CsvCell.rat (testResOf (testRun
            (parseTestArgs "cfg.yaml" "model.pth" none) cfgTest oracleW)).2.1,
          CsvCell.rat (testResOf (testRun
            (parseTestArgs "cfg.yaml" "model.pth" none) cfgTest
              oracleW)).2.2.1,
          CsvCell.rat (testResOf (testRun
            (parseTestArgs "cfg.yaml" "model.pth" none) cfgTest
              oracleW)).2.2.2]] :=
  ⟨rfl,
   (c4_csv_logs_append_only.1 cfgW oracleW _ _ [] rfl).1,
   rfl,
   by
     obtain ⟨r, hr, hrows, -⟩ := c4_csv_logs_append_only.2
       (parseTestArgs "cfg.yaml" "model.pth" none) cfgTest oracleW _ _ [] rfl
     exact ⟨r, hr, hrows⟩⟩

/-- C7 counterexample: the claim says validation metric computation
occurs after that epoch's checkpoint writes, but at this concrete
config and oracle the epoch-1 'best' checkpoint (written by
`save(config, model, save_path, 'best')` at train.py line 292) comes
strictly after the `eval_psnr` call of epoch 1 in the trace, so not
all of the epoch's checkpoint writes precede validation. -/
theorem c7_after_checkpoint_counterexample :
    Event.evalVal 1 ∈ evtsOf (trainRun cfgW oracleW) ∧
    Event.saveCkpt 1 "best" ∈ evtsOf (trainRun cfgW oracleW) ∧
    (evtsOf (trainRun cfgW oracleW)).indexOf (Event.evalVal 1) <
      (evtsOf (trainRun cfgW oracleW)).indexOf (Event.saveCkpt 1 "best") := by
  decide

/-- C7 amended: on a successful run the trace is the pre-loop prefix
(config load, then dataset construction, then model construction and
SAM checkpoint load) followed by one block per epoch in loop order;
within each epoch's block, training precedes the 'last' checkpoint
write, validation happens exactly when `epoch_val` is set, nonzero and
divides the epoch, and it follows that epoch's 'last' and 'best_loss'
checkpoint writes — but a 'best' checkpoint, when written, follows
validation rather than preceding it. -/
theorem c7_execution_order :
    ∀ (cfg : Config) (oracle : Oracle) (E : List Event) (m : Model),
      trainRun cfg oracle = .ok (E, m) →
      preLoopEvents cfg =
        [Event.loadConfig, Event.makeDataset "train", Event.makeDataset "val",
         Event.makeModel, Event.makeOptimizer, Event.makeScheduler,
         Event.makeScheduler, Event.loadCheckpoint cfg.sam_checkpoint] ∧
      ∃ blocks : List (List Event),
        E = preLoopEvents cfg ++ blocks.flatten ∧
        List.Forall₂ (BlockShape cfg oracle) (epochLoop cfg) blocks :=
  fun cfg _ _ _ h => ⟨preLoopEvents_eq cfg, trainRun_ok_shape h⟩

/-- Witness for C7's amended theorem at a concrete config and
oracle. -/
theorem c7_execution_order_witness :
    trainRun cfgW oracleW =
      .ok (evtsOf (trainRun cfgW oracleW),
           modelOfRun (trainRun cfgW oracleW)) ∧
    ∃ blocks : List (List Event),
      evtsOf (trainRun cfgW oracleW) = preLoopEvents cfgW ++ blocks.flatten ∧
      List.Forall₂ (BlockShape cfgW oracleW) (epochLoop cfgW) blocks :=
  ⟨rfl, (c7_execution_order cfgW oracleW _ _ rfl).2⟩

/-- C5: the `--prompt` CLI flag of test.py is parsed (with default
'none') but never used: two runs differing only in the prompt argument
produce identical results, printed metrics, and file writes. -/
theorem c5_prompt_flag_unused :
    ∀ configArg modelArg p1 p2 cfg oracle,
      testRun { config := configArg, model := modelArg, prompt := p1 }
          cfg oracle =
        testRun { config := configArg, model := modelArg, prompt := p2 }
          cfg oracle ∧
      ∀ po1 po2,
        testRun (parseTestArgs configArg modelArg po1) cfg oracle =
          testRun (parseTestArgs configArg modelArg po2) cfg oracle := by
  intro _ _ _ _ _ _
  exact ⟨rfl, fun _ _ => rfl⟩

lemma mem_epochRange {s t e : Int} : e ∈ epochRange s t ↔ s ≤ e ∧ e < t := by
  simp only [epochRange, List.mem_map, List.mem_range]
  constructor
  · rintro ⟨i, hi, rfl⟩
    omega
  · intro ⟨h1, h2⟩
    exact ⟨(e - s).toNat, by omega, by omega⟩

lemma pairwise_epochRange {s t : Int} :
    (epochRange s t).Pairwise (· < ·) := by
  unfold epochRange
  rw [List.pairwise_map]
  exact (List.pairwise_lt_range _).imp (by intro a b h; omega)

/-- C6: with `resume = r` in the config, training starts at epoch
`r + 1`; without it, at epoch 1; the loop `range(epoch_start,
epoch_max + 1)` visits exactly the epochs from `epoch_start` to
`epoch_max` inclusive, each exactly once, in increasing order. -/
theorem c6_epoch_loop :
    ∀ (cfg : Config) (r : Int),
      (cfg.resume = some r →
        (prepare_training cfg).1.epoch_start = r + 1) ∧
      (cfg.resume = none → (prepare_training cfg).1.epoch_start = 1) ∧
      (∀ e : Int, e ∈ epochLoop cfg ↔
        (prepare_training cfg).1.epoch_start ≤ e ∧ e ≤ cfg.epoch_max) ∧
      (epochLoop cfg).Pairwise (· < ·) ∧
      (∀ e : Int, (epochLoop cfg).count e =
        if (prepare_training cfg).1.epoch_start ≤ e ∧ e ≤ cfg.epoch_max
        then 1 else 0) := by
  intro cfg r
  have hmem : ∀ e : Int, e ∈ epochLoop cfg ↔
      (prepare_training cfg).1.epoch_start ≤ e ∧ e ≤ cfg.epoch_max := by
    intro e
    rw [epochLoop, mem_epochRange]
    omega
  have hpw : (epochLoop cfg).Pairwise (· < ·) := pairwise_epochRange
  refine ⟨?_, ?_, hmem, hpw, ?_⟩
  · intro h
    simp [prepare_training, h]
  · intro h
    simp [prepare_training, h]
  · intro e
    by_cases he : (prepare_training cfg).1.epoch_start ≤ e ∧ e ≤ cfg.epoch_max
    · rw [if_pos he]
      exact List.count_eq_one_of_mem (hpw.imp ne_of_lt) ((hmem e).mpr he)
    · rw [if_neg he]
      exact List.count_eq_zero.mpr (fun hc => he ((hmem e).mp hc))

/-- Witness for C6: with `resume = 2` and `epoch_max = 5`, the loop is
over epochs 3, 4, 5, and epoch 4 occurs exactly once. -/
theorem c6_epoch_loop_witness :
    Config.resume { cfgW with resume := some 2, epoch_max := 5 } = some 2 ∧
    (prepare_training { cfgW with resume := some 2, epoch_max := 5 }).1.epoch_start = 2 + 1 ∧
    (epochLoop { cfgW with resume := some 2, epoch_max := 5 }).count 4 =
      if (prepare_training { cfgW with resume := some 2, epoch_max := 5 }).1.epoch_start ≤ 4 ∧
          (4 : Int) ≤ Config.epoch_max { cfgW with resume := some 2, epoch_max := 5 }
      then 1 else 0 :=
  ⟨rfl,
   (c6_epoch_loop { cfgW with resume := some 2, epoch_max := 5 } 2).1 rfl,
   (c6_epoch_loop { cfgW with resume := some 2, epoch_max := 5 } 2).2.2.2.2 4⟩

/-- C8: resuming restores no saved state: `prepare_training` builds
the model, optimizer and scheduler identically whether `resume` is set
or not, performs the same external constructions (none of which loads
a checkpoint), and the two branches differ only in `epoch_start`. -/
theorem c8_resume_restores_nothing :
    ∀ (cfg : Config) (r : Int),
      (prepare_training { cfg with resume := some r }).1.model =
        (prepare_training { cfg with resume := none }).1.model ∧
      (prepare_training { cfg with resume := some r }).1.optimizer =
        (prepare_training { cfg with resume := none }).1.optimizer ∧
      (prepare_training { cfg with resume := some r }).1.lr_scheduler =
        (prepare_training { cfg with resume := none }).1.lr_scheduler ∧
      (prepare_training { cfg with resume := some r }).1.epoch_start = r + 1 ∧
      (prepare_training { cfg with resume := none }).1.epoch_start = 1 ∧
      (prepare_training { cfg with resume := some r }).2 =
        (prepare_training { cfg with resume := none }).2 ∧
      (∀ e ∈ (prepare_training { cfg with resume := some r }).2,
        ∀ path, e ≠ Event.loadCheckpoint path) := by
  intro cfg r
  refine ⟨rfl, rfl, rfl, rfl, rfl, rfl, ?_⟩
  intro e he path
  have hev : (prepare_training { cfg with resume := some r }).2 =
      [Event.makeModel, Event.makeOptimizer, Event.makeScheduler] := rfl
  rw [hev] at he
  simp only [List.mem_cons, List.not_mem_nil, or_false] at he
  rcases he with h | h | h <;> subst h <;> simp

/-- Witness for C8 at a concrete config. -/
theorem c8_resume_restores_nothing_witness :
    (prepare_training { cfgW with resume := some 3 }).1.epoch_start = 3 + 1 ∧
    Event.makeModel ∈ (prepare_training { cfgW with resume := some 3 }).2 ∧
    Event.makeModel ≠ Event.loadCheckpoint "sam.pth" :=
  ⟨(c8_resume_restores_nothing cfgW 3).2.2.2.1, by decide,
   (c8_resume_restores_nothing cfgW 3).2.2.2.2.2.2 Event.makeModel (by decide)
     "sam.pth"⟩

lemma rangeStep_eq : rangeStep 10 255 10 =
    [10, 20, 30, 40, 50, 60, 70, 80, 90, 100, 110, 120, 130, 140, 150,
     160, 170, 180, 190, 200, 210, 220, 230, 240, 250] := by decide

lemma foldl_last {β : Type _} (f : Int → β) :
    ∀ (l : List Int) (acc : List Int) (r : Option β),
      l.foldl (fun acc t => (acc.1 ++ [t], some (f t))) (acc, r) =
        (acc ++ l,
         match l.getLast? with | none => r | some t => some (f t)) := by
  intro l
  induction l with
  | nil => intro acc r; simp
  | cons x xs ih =>
      intro acc r
      rw [List.foldl_cons, ih]
      cases xs with
      | nil => simp
      | cons y ys =>
          cases hg : (y :: ys).getLast? with
          | none => exact absurd hg (by simp)
          | some t => simp [hg]

lemma thresholdLoop_eq (me : MetricFn → Tensor → Tensor → Int → ℚ × ℚ × ℚ × ℚ)
    (fn : MetricFn) (p g : Tensor) :
    thresholdLoop me fn p g =
      ([10, 20, 30, 40, 50, 60, 70, 80, 90, 100, 110, 120, 130, 140, 150,
        160, 170, 180, 190, 200, 210, 220, 230, 240, 250],
       some (me fn p g 250)) := by
  rw [thresholdLoop, rangeStep_eq, foldl_last (me fn p g)]
  rfl

/-- C9: test.py's `eval_psnr` evaluates the metric at every threshold
in 10, 20, ..., 250 and returns only the four results from the final
threshold 250; earlier thresholds do not affect the returned value. -/
theorem c9_last_threshold_only :
    ∀ model loader me et fn m1 m2 m3 m4 dn eb vb,
      selectMetric et = some (fn, m1, m2, m3, m4) →
      thresholdLoop me fn (predCat model loader) (gtCat loader) =
        ([10, 20, 30, 40, 50, 60, 70, 80, 90, 100, 110, 120, 130, 140, 150,
          160, 170, 180, 190, 200, 210, 220, 230, 240, 250],
         some (me fn (predCat model loader) (gtCat loader) 250)) ∧
      rangeStep 10 255 10 =
        [10, 20, 30, 40, 50, 60, 70, 80, 90, 100, 110, 120, 130, 140, 150,
         160, 170, 180, 190, 200, 210, 220, 230, 240, 250] ∧
      eval_psnr_test model loader dn et eb vb me =
        Except.ok (me fn (predCat model loader) (gtCat loader) 250) := by
  intro model loader me et fn m1 m2 m3 m4 dn eb vb h
  refine ⟨thresholdLoop_eq me fn _ _, rfl, ?_⟩
  simp [eval_psnr_test, h, thresholdLoop_eq]

/-- Witness for C9 at `eval_type = 'dice'` with a constant metric
oracle. -/
theorem c9_last_threshold_only_witness :
    selectMetric (some "dice") =
      some (MetricFn.cal_dice_iou, "dice", "iou", "none", "none") ∧
    eval_psnr_test modelW [] none (some "dice") none true metricEvalTW =
      Except.ok (1, 0, 0, 0) :=
  ⟨rfl,
   (c9_last_threshold_only modelW [] metricEvalTW (some "dice")
     MetricFn.cal_dice_iou "dice" "iou" "none" "none" none none true
     rfl).2.2⟩

lemma chunks_flatten {α : Type _} (bsize : Nat) :
    ∀ (n : Nat) (l : List α), l.length ≤ n → (chunks bsize l).flatten = l := by
  intro n
  induction n with
  | zero =>
      intro l hl
      obtain rfl : l = [] := List.eq_nil_of_length_eq_zero (Nat.le_zero.mp hl)
      simp [chunks]
  | succ n ih =>
      intro l hl
      match l with
      | [] => simp [chunks]
      | x :: xs =>
          have hlen : (xs.drop (bsize - 1)).length ≤ n := by
            simp only [List.length_drop]
            simp only [List.length_cons] at hl
            omega
          simp only [chunks, List.flatten_cons]
          rw [ih (xs.drop (bsize - 1)) hlen]
          simp [List.take_append_drop]

lemma chunks_sizes {α : Type _} (bsize : Nat) (hb : 1 ≤ bsize) :
    ∀ (n : Nat) (l : List α), l.length ≤ n →
      ∀ c ∈ chunks bsize l, 0 < c.length ∧ c.length ≤ bsize := by
  intro n
  induction n with
  | zero =>
      intro l hl
      obtain rfl : l = [] := List.eq_nil_of_length_eq_zero (Nat.le_zero.mp hl)
      simp [chunks]
  | succ n ih =>
      intro l hl c hc
      match l with
      | [] => simp [chunks] at hc
      | x :: xs =>
          have hlen : (xs.drop (bsize - 1)).length ≤ n := by
            simp only [List.length_drop]
            simp only [List.length_cons] at hl
            omega
          simp only [chunks, List.mem_cons] at hc
          rcases hc with rfl | hc
          · constructor
            · simp
            · simp only [List.length_cons, List.length_take]
              omega
          · exact ih (xs.drop (bsize - 1)) hlen c hc

lemma chunks_count {α : Type _} (bsize : Nat) (hb : 1 ≤ bsize) :
    ∀ (n : Nat) (l : List α), l.length ≤ n →
      (chunks bsize l).length = (l.length + bsize - 1) / bsize := by
  intro n
  induction n with
  | zero =>
      intro l hl
      obtain rfl : l = [] := List.eq_nil_of_length_eq_zero (Nat.le_zero.mp hl)
      simp only [chunks, List.length_nil]
      exact (Nat.div_eq_of_lt (by omega)).symm
  | succ n ih =>
      intro l hl
      match l with
      | [] =>
          simp only [chunks, List.length_nil]
          exact (Nat.div_eq_of_lt (by omega)).symm
      | x :: xs =>
          have hlen : (xs.drop (bsize - 1)).length ≤ n := by
            simp only [List.length_drop]
            simp only [List.length_cons] at hl
            omega
          simp only [chunks, List.length_cons]
          rw [ih (xs.drop (bsize - 1)) hlen]
          simp only [List.length_drop]
          rcases Nat.lt_or_ge xs.length bsize with hc | hc
          · have h1 : xs.length - (bsize - 1) + bsize - 1 < bsize := by omega
            rw [Nat.div_eq_of_lt h1]
            have h2 : xs.length + 1 + bsize - 1 = xs.length + bsize := by omega
            rw [h2, Nat.add_div_right _ (by omega), Nat.div_eq_of_lt hc]
          · have h1 : xs.length - (bsize - 1) + bsize - 1 =
                xs.length - bsize + bsize := by omega
            have h2 : xs.length + 1 + bsize - 1 = xs.length + bsize := by omega
            rw [h1, h2, Nat.add_div_right _ (by omega),
              Nat.add_div_right _ (by omega)]
            have h3 : xs.length / bsize = (xs.length - bsize) / bsize + 1 := by
              conv_lhs => rw [show xs.length = (xs.length - bsize) + bsize
                by omega]
              rw [Nat.add_div_right _ (by omega)]
            omega

lemma bpGo_eq_chunks {α : Type _} (query : List α → Tensor) (bsize : Nat) :
    ∀ (n : Nat) (l : List α), l.length ≤ n →
      bpGo query bsize l = (chunks bsize l).map query := by
  intro n
  induction n with
  | zero =>
      intro l hl
      obtain rfl : l = [] := List.eq_nil_of_length_eq_zero (Nat.le_zero.mp hl)
      simp [bpGo, chunks]
  | succ n ih =>
      intro l hl
      match l with
      | [] => simp [bpGo, chunks]
      | x :: xs =>
          have hlen : (xs.drop (bsize - 1)).length ≤ n := by
            simp only [List.length_drop]
            simp only [List.length_cons] at hl
            omega
          simp only [bpGo, chunks, List.map_cons]
          rw [ih (xs.drop (bsize - 1)) hlen]

/-- C10: for every `bsize ≥ 1`, `batched_predict` terminates after
`⌈n / bsize⌉` loop iterations, the loop slices `[0, n)` into
consecutive disjoint chunks of size at most `bsize` whose
concatenation restores `coord` (each coordinate queried exactly once),
and the returned pair is the dimension-1 concatenation of the
per-chunk predictions together with the per-chunk prediction list. -/
theorem c10_batched_predict {α : Type _}
    (query : List α → Tensor) (coord : List α) (bsize : Nat)
    (hb : 1 ≤ bsize) :
    (chunks bsize coord).flatten = coord ∧
    (∀ c ∈ chunks bsize coord, 0 < c.length ∧ c.length ≤ bsize) ∧
    (chunks bsize coord).length = (coord.length + bsize - 1) / bsize ∧
    batched_predict query coord bsize =
      (Tensor.cat1 ((chunks bsize coord).map query),
       (chunks bsize coord).map query) := by
  refine ⟨chunks_flatten bsize coord.length coord le_rfl,
    chunks_sizes bsize hb coord.length coord le_rfl,
    chunks_count bsize hb coord.length coord le_rfl, ?_⟩
  unfold batched_predict
  rw [bpGo_eq_chunks query bsize coord.length coord le_rfl]

/-- Witness for C10: chunking `[0, 1, 2]` with `bsize = 2`. -/
theorem c10_batched_predict_witness :
    (1 : Nat) ≤ 2 ∧
    (chunks 2 [0, 1, 2] : List (List Nat)).flatten = [0, 1, 2] ∧
    (chunks 2 ([0, 1, 2] : List Nat)).length = (3 + 2 - 1) / 2 :=
  ⟨by decide,
   (c10_batched_predict (fun _ => Tensor.raw "q") [0, 1, 2] 2
     (by decide)).1,
   (c10_batched_predict (fun _ => Tensor.raw "q") [0, 1, 2] 2
     (by decide)).2.2.1⟩

end SSMSAM
